import Mathlib

/-!
Verification of `aimet_tensorflow/quantsim_straight_through_grad.py`.

The module computes straight-through-estimator gradients for fake-quantize
ops.  We embed the tensor arithmetic over exact rationals (`ℚ`): every
TensorFlow elementwise op becomes a `List`/`Tensor` map, reductions become
list sums, and `tf.cond`/`tf.where` become `if`.  Casts between float
precisions are identities in this embedding.
-/

namespace QuantsimGrad

/-- `tf.round`: round half to even (banker's rounding), as documented for
TensorFlow's rounding op used throughout the source. -/
def roundTF (q : ℚ) : ℚ :=
  if q - (⌊q⌋ : ℚ) = 1/2 then
    (if ⌊q⌋ % 2 = 0 then (⌊q⌋ : ℚ) else (⌊q⌋ : ℚ) + 1)
  else (round q : ℚ)

/-- `tf.clip_by_value t lo hi = min (max t lo) hi`. -/
def clipQ (x lo hi : ℚ) : ℚ := min (max x lo) hi

/-- `epsilon = tf.constant(1e-5)` (lines 120 / 171). -/
def epsilon : ℚ := 1 / 100000

/-- The clamp `encoding_max = tf.math.maximum(encoding_max, encoding_min + epsilon)`
applied at the start of both gradient calculators (lines 121 / 172). -/
def clampEncodingMax (emin emax : ℚ) : ℚ := max emax (emin + epsilon)

/-- `num_steps = 2 ** bitwidth - 1` (lines 123 / 174). -/
def numSteps (bw : ℕ) : ℚ := 2 ^ bw - 1

/-- `half_num_steps = num_steps / 2` (line 124). -/
def halfNumSteps (bw : ℕ) : ℚ := numSteps bw / 2

/-- Symmetric `delta = encoding_max / floor(half_num_steps)` (line 125),
taking the post-clamp encoding max. -/
def deltaSym (bw : ℕ) (emax : ℚ) : ℚ := emax / (⌊halfNumSteps bw⌋ : ℚ)

/-- Symmetric `offset = -ceil(half_num_steps)` (line 126). -/
def offsetSym (bw : ℕ) : ℚ := -(⌈halfNumSteps bw⌉ : ℚ)

/-- Symmetric `x_round = round(inputs / delta) - offset` (line 129),
with the post-clamp encoding max. -/
def xRoundSym (bw : ℕ) (emax xi : ℚ) : ℚ := roundTF (xi / deltaSym bw emax) - offsetSym bw

/-- Symmetric straight-through mask (lines 132-133):
`cast(x_round >= 0) * cast(x_round <= num_steps)`. -/
def maskSym (bw : ℕ) (emax xi : ℚ) : ℚ :=
  (if 0 ≤ xRoundSym bw emax xi then (1 : ℚ) else 0) *
  (if xRoundSym bw emax xi ≤ numSteps bw then (1 : ℚ) else 0)

/-- The body of `grad_encoding_max` for one reduction group (a whole
per-tensor input, or one channel slice): lines 140-143, with `emax` the
post-clamp encoding max.  `x` and `g` are the elements of the group. -/
def gradEncMaxSym (bw : ℕ) (emax : ℚ) (x g : List ℚ) : ℚ :=
  (((x.zip g).map (fun p =>
        (clipQ (xRoundSym bw emax p.1) 0 (numSteps bw) + offsetSym bw) * p.2)).sum -
   ((x.zip g).map (fun p =>
        maskSym bw emax p.1 * (p.1 / deltaSym bw emax) * p.2)).sum) /
  (⌊halfNumSteps bw⌋ : ℚ)

/-- `_compute_dloss_by_dmin_dmax_and_dx_symmetric` (lines 99-146) in the
per-tensor case: scalar encodings, inputs flattened to one list.
Returns `(dloss_by_dmin, dloss_by_dmax, dloss_by_dx)`. -/
def computeSymmetric (bw : ℕ) (emin emax : ℚ) (x g : List ℚ) : ℚ × ℚ × List ℚ :=
  let emax2 := clampEncodingMax emin emax
  let dmax := gradEncMaxSym bw emax2 x g
  (-dmax, dmax, (x.zip g).map (fun p => maskSym bw emax2 p.1 * p.2))

/-- Asymmetric `delta = (encoding_max - encoding_min) / num_steps` (line 175),
with `emax` the post-clamp encoding max. -/
def deltaAsym (bw : ℕ) (emin emax : ℚ) : ℚ := (emax - emin) / numSteps bw

/-- Asymmetric zero point `b_zero = min(num_steps, max(0, round(-min/delta)))`
(lines 176-177). -/
def bZero (bw : ℕ) (emin emax : ℚ) : ℚ :=
  min (numSteps bw) (max 0 (roundTF (-emin / deltaAsym bw emin emax)))

/-- Asymmetric `offset = -b_zero` (line 178). -/
def offsetAsym (bw : ℕ) (emin emax : ℚ) : ℚ := -(bZero bw emin emax)

/-- Asymmetric `x_round = round(inputs / delta) - offset` (line 181). -/
def xRoundAsym (bw : ℕ) (emin emax xi : ℚ) : ℚ :=
  roundTF (xi / deltaAsym bw emin emax) - offsetAsym bw emin emax

/-- Asymmetric `x_quant = clip(x_round, 0, num_steps)` (line 182). -/
def xQuantAsym (bw : ℕ) (emin emax xi : ℚ) : ℚ :=
  clipQ (xRoundAsym bw emin emax xi) 0 (numSteps bw)

/-- Asymmetric straight-through mask (lines 184-185). -/
def maskAsym (bw : ℕ) (emin emax xi : ℚ) : ℚ :=
  (if 0 ≤ xRoundAsym bw emin emax xi then (1 : ℚ) else 0) *
  (if xRoundAsym bw emin emax xi ≤ numSteps bw then (1 : ℚ) else 0)

/-- `_compute_dloss_by_dmin_dmax_and_dx_asymmetric` (lines 150-205) in the
per-tensor case.  Returns `(dloss_by_dmin, dloss_by_dmax, dloss_by_dx)`. -/
def computeAsymmetric (bw : ℕ) (emin emax : ℚ) (x g : List ℚ) : ℚ × ℚ × List ℚ :=
  let emax2 := clampEncodingMax emin emax
  let d := deltaAsym bw emin emax2
  let gradScale := (x.zip g).map (fun p =>
    (xQuantAsym bw emin emax2 p.1 + offsetAsym bw emin emax2 -
      p.1 * maskAsym bw emin emax2 p.1 / d) * p.2)
  let gradOffset := (x.zip g).map (fun p =>
    (d * p.2) * (1 - maskAsym bw emin emax2 p.1))
  let term1 := gradScale.sum / numSteps bw
  let term2 := numSteps bw / (emax2 - emin) ^ 2 * gradOffset.sum
  (-term1 + emax2 * term2, term1 - emin * term2,
   (x.zip g).map (fun p => maskAsym bw emin emax2 p.1 * p.2))

/-- `int(libpymo.TensorQuantizerOpMode.passThrough)`.  The literal comparison
at line 63 (`tf.equal(op_mode, 3)`) fixes the pass-through code to 3. -/
def passThroughMode : ℤ := 3

/-- `_calculate_gradients` (lines 296-345) in the per-tensor case: dispatch
on the symmetry flag, then the pass-through op-mode override. -/
def calculateGradients (bw : ℕ) (emin emax : ℚ) (useSym : Bool) (opMode : ℤ)
    (x g : List ℚ) : ℚ × ℚ × List ℚ :=
  let r := if useSym then computeSymmetric bw emin emax x g
           else computeAsymmetric bw emin emax x g
  if opMode = passThroughMode then (0, 0, g) else r

/-- `_compute_dloss_by_dx` (lines 48-65): mask `encoding_min <= x <= encoding_max`
times grad, overridden by grad when `op_mode == 3`. -/
def computeDlossByDx (emin emax : ℚ) (opMode : ℤ) (x g : List ℚ) : List ℚ :=
  let d := (x.zip g).map (fun p =>
    (if emin ≤ p.1 then (if p.1 ≤ emax then (1 : ℚ) else 0) else 0) * p.2)
  if opMode = 3 then g else d

/-- `_qc_straight_through_estimator_grad` (lines 69-81), the `dloss_by_dx`
output: the is-int-data-type gate around `_compute_dloss_by_dx`. -/
def qcStraightThroughEstimatorGrad (emin emax : ℚ) (opMode : ℤ) (isInt : Bool)
    (x g : List ℚ) : List ℚ :=
  if isInt then computeDlossByDx emin emax opMode x g else g

/-- `_qc_recurrent_param_straight_through_estimator_grad` (lines 84-95), the
`dloss_by_dx` output: `_compute_dloss_by_dx` applied unconditionally. -/
def qcRecurrentParamStraightThroughEstimatorGrad (emin emax : ℚ) (opMode : ℤ)
    (x g : List ℚ) : List ℚ :=
  computeDlossByDx emin emax opMode x g

/-- A dense row-major tensor: a shape and the flattened data.  `tf.reshape`
keeps the row-major data and replaces the shape. -/
structure Tensor where
  shape : List ℕ
  data : List ℚ
  deriving DecidableEq, Repr

/-- Modelled from the spec: the `AxisHandling` enumerant
`{perTensor, perChannel, lastTwoAxesCombined}`.  Its numeric codes live in
`aimet_tensorflow.defs`, which is outside this source; the source only ever
compares the axis-handling value against `AxisHandling.LAST_TWO_AXES`. -/
inductive AxisHandling where
  | perTensor
  | perChannel
  | lastTwoAxes
  deriving DecidableEq, Repr

/-- Negative indexing into a shape: `dim s i` is `s[-1-i]` (`dim s 0` is the
last extent).  The source indexes `orig_shape[-4] .. orig_shape[-1]` after
padding, which always exists for inputs of rank ≥ 1; the default is unused
by valid calls. -/
def dim (s : List ℕ) (i : ℕ) : ℕ := s.reverse.getD i 1

/-- `reshape_input_and_grad_for_axis_handling` (lines 228-252): for
`LAST_TWO_AXES`, pad the shape with three leading singleton axes, then
reshape both tensors to `[s[-4], s[-3], s[-2]*s[-1]]`; otherwise identity. -/
def reshapeInputAndGradForAxisHandling (ah : AxisHandling) (x g : Tensor) :
    Tensor × Tensor :=
  if ah = AxisHandling.lastTwoAxes then
    let s := 1 :: 1 :: 1 :: x.shape
    let newShape := [dim s 3, dim s 2, dim s 1 * dim s 0]
    (⟨newShape, x.data⟩, ⟨newShape, g.data⟩)
  else (x, g)

/-- `reshape_dloss_by_dx_for_axis_handling` (lines 254-277): for
`LAST_TWO_AXES`, reshape `dloss_by_dx` back to the rightmost four extents
of the padded original input shape; otherwise identity. -/
def reshapeDlossByDxForAxisHandling (ah : AxisHandling) (x dldx : Tensor) :
    Tensor :=
  if ah = AxisHandling.lastTwoAxes then
    let s := 1 :: 1 :: 1 :: x.shape
    ⟨[dim s 3, dim s 2, dim s 1, dim s 0], dldx.data⟩
  else dldx

/-- The channel count of a per-channel tensor: the last axis extent. -/
def lastDim (t : Tensor) : ℕ := t.shape.getLastD 1

/-- The elements of channel `ch` of a row-major tensor whose last axis has
extent `c`: the elements at flat indices congruent to `ch` mod `c`.  This is
what `tf.reduce_sum` over all axes but the last groups together. -/
def channelSlice (t : Tensor) (c ch : ℕ) : List ℚ :=
  ((t.data.enum).filter (fun p => p.1 % c = ch)).map (·.2)

/-- `_compute_dloss_by_dmin_dmax_and_dx_symmetric` in the per-channel case
(vector encodings, reduction over all axes but the last): per-channel
encoding gradients, elementwise mask times grad for `dloss_by_dx`. -/
def computeSymmetricPC (bw : ℕ) (emin emax : List ℚ) (x g : Tensor) :
    List ℚ × List ℚ × Tensor :=
  let c := lastDim x
  let res := (List.range c).map (fun ch =>
    computeSymmetric bw (emin.getD ch 0) (emax.getD ch 0)
      (channelSlice x c ch) (channelSlice g c ch))
  let dxData := ((x.data.zip g.data).enum).map (fun p =>
    maskSym bw (clampEncodingMax (emin.getD (p.1 % c) 0) (emax.getD (p.1 % c) 0))
      p.2.1 * p.2.2)
  (res.map (·.1), res.map (·.2.1), ⟨x.shape, dxData⟩)

/-- `_compute_dloss_by_dmin_dmax_and_dx_asymmetric` in the per-channel case. -/
def computeAsymmetricPC (bw : ℕ) (emin emax : List ℚ) (x g : Tensor) :
    List ℚ × List ℚ × Tensor :=
  let c := lastDim x
  let res := (List.range c).map (fun ch =>
    computeAsymmetric bw (emin.getD ch 0) (emax.getD ch 0)
      (channelSlice x c ch) (channelSlice g c ch))
  let dxData := ((x.data.zip g.data).enum).map (fun p =>
    maskAsym bw (emin.getD (p.1 % c) 0)
      (clampEncodingMax (emin.getD (p.1 % c) 0) (emax.getD (p.1 % c) 0))
      p.2.1 * p.2.2)
  (res.map (·.1), res.map (·.2.1), ⟨x.shape, dxData⟩)

/-- `_calculate_gradients` (lines 296-345) in the per-channel case:
dispatch on symmetry, then the pass-through override, whose encoding
gradients are `zeros_like` the encoding vectors. -/
def calculateGradientsPC (bw : ℕ) (emin emax : List ℚ) (useSym : Bool)
    (opMode : ℤ) (x g : Tensor) : List ℚ × List ℚ × Tensor :=
  let r := if useSym then computeSymmetricPC bw emin emax x g
           else computeAsymmetricPC bw emin emax x g
  if opMode = passThroughMode then
    (emin.map (fun _ => (0 : ℚ)), emax.map (fun _ => (0 : ℚ)), g)
  else r

/-- `_compute_dloss_by_dmin_dmax_and_dx_for_per_channel` (lines 210-293):
reshape for axis handling, compute gradients, reshape `dloss_by_dx` back,
then replace `dloss_by_dx` by the (reshaped) grad when the data type is not
integer.  Argument order follows the source. -/
def computePerChannel (x : Tensor) (bw : ℕ) (opMode : ℤ) (emin emax : List ℚ)
    (useSym : Bool) (isInt : Bool) (ah : AxisHandling) (g : Tensor) :
    List ℚ × List ℚ × Tensor :=
  let rp := reshapeInputAndGradForAxisHandling ah x g
  let r := calculateGradientsPC bw emin emax useSym opMode rp.1 rp.2
  let dx2 := reshapeDlossByDxForAxisHandling ah x r.2.2
  (r.1, r.2.1, if isInt then dx2 else rp.2)

/-- Stated from the spec's words (the active straight-through input gradient
of the simple per-tensor path): grad where `encodingMin ≤ x ≤ encodingMax`,
zero elsewhere, with no op-mode bypass. -/
def activeStraightThroughDx (emin emax : ℚ) (x g : List ℚ) : List ℚ :=
  (x.zip g).map (fun p => if emin ≤ p.1 ∧ p.1 ≤ emax then p.2 else 0)

/-- Stated from the spec's words for the asymmetric path:
`offset = -clip(round(-min/delta), 0, numSteps)`, the encoding range being
post-clamp. -/
def specOffsetAsym (bw : ℕ) (emin emax : ℚ) : ℚ :=
  -(clipQ (roundTF (-emin / deltaAsym bw emin emax)) 0 (numSteps bw))

/-- Stated from the spec's words: `xRound = round(x/delta) - offset`. -/
def specXRoundAsym (bw : ℕ) (emin emax xi : ℚ) : ℚ :=
  roundTF (xi / deltaAsym bw emin emax) - specOffsetAsym bw emin emax

/-- Stated from the spec's words: `xQuant = clip(xRound, 0, numSteps)`. -/
def specXQuantAsym (bw : ℕ) (emin emax xi : ℚ) : ℚ :=
  clipQ (specXRoundAsym bw emin emax xi) 0 (numSteps bw)

/-- Stated from the spec's words: `mask = 1` where `0 ≤ xRound ≤ numSteps`,
else `0`. -/
def specMaskAsym (bw : ℕ) (emin emax xi : ℚ) : ℚ :=
  if 0 ≤ specXRoundAsym bw emin emax xi ∧ specXRoundAsym bw emin emax xi ≤ numSteps bw
  then 1 else 0

/-- Stated from the spec's words:
`term1 = reduceSum[(xQuant + offset - x * mask / delta) * grad] / numSteps`. -/
def specTerm1Asym (bw : ℕ) (emin emax : ℚ) (x g : List ℚ) : ℚ :=
  ((x.zip g).map (fun p =>
    (specXQuantAsym bw emin emax p.1 + specOffsetAsym bw emin emax -
      p.1 * specMaskAsym bw emin emax p.1 / deltaAsym bw emin emax) * p.2)).sum /
  numSteps bw

/-- Stated from the spec's words:
`term2 = numSteps / (max - min)^2 * reduceSum[(delta * grad) * (1 - mask)]`. -/
def specTerm2Asym (bw : ℕ) (emin emax : ℚ) (x g : List ℚ) : ℚ :=
  numSteps bw / (emax - emin) ^ 2 *
  ((x.zip g).map (fun p =>
    (deltaAsym bw emin emax * p.2) * (1 - specMaskAsym bw emin emax p.1))).sum

/-- Stated from the spec's words: `dL/dmin = -term1 + max * term2`. -/
def specDlossByDminAsym (bw : ℕ) (emin emax : ℚ) (x g : List ℚ) : ℚ :=
  -specTerm1Asym bw emin emax x g + emax * specTerm2Asym bw emin emax x g

/-- Stated from the spec's words: `dL/dmax = term1 - min * term2`. -/
def specDlossByDmaxAsym (bw : ℕ) (emin emax : ℚ) (x g : List ℚ) : ℚ :=
  specTerm1Asym bw emin emax x g - emin * specTerm2Asym bw emin emax x g

/-! Helper lemmas shared by the claim theorems. -/

lemma if_one_mul_if_one (a b : Prop) [Decidable a] [Decidable b] :
    (if a then (1 : ℚ) else 0) * (if b then (1 : ℚ) else 0) =
      if a ∧ b then 1 else 0 := by
  by_cases ha : a <;> by_cases hb : b <;> simp [ha, hb]

lemma reshapeForward_fst_data (ah : AxisHandling) (x g : Tensor) :
    (reshapeInputAndGradForAxisHandling ah x g).1.data = x.data := by
  unfold reshapeInputAndGradForAxisHandling
  split <;> rfl

lemma reshapeForward_snd_data (ah : AxisHandling) (x g : Tensor) :
    (reshapeInputAndGradForAxisHandling ah x g).2.data = g.data := by
  unfold reshapeInputAndGradForAxisHandling
  split <;> rfl

lemma reshapeForward_not_lastTwo (ah : AxisHandling) (x g : Tensor)
    (h : ah ≠ AxisHandling.lastTwoAxes) :
    reshapeInputAndGradForAxisHandling ah x g = (x, g) := by
  unfold reshapeInputAndGradForAxisHandling
  simp [h]

lemma reshapeBack_data (ah : AxisHandling) (x t : Tensor) :
    (reshapeDlossByDxForAxisHandling ah x t).data = t.data := by
  unfold reshapeDlossByDxForAxisHandling
  split <;> rfl

lemma reshapeBack_not_lastTwo (ah : AxisHandling) (x t : Tensor)
    (h : ah ≠ AxisHandling.lastTwoAxes) :
    reshapeDlossByDxForAxisHandling ah x t = t := by
  unfold reshapeDlossByDxForAxisHandling
  simp [h]

lemma ceil_seven_halves : (⌈(7 : ℚ)/2⌉ : ℤ) = 4 := by
  rw [Int.ceil_eq_iff]
  norm_num

lemma numSteps_three : numSteps 3 = 7 := by norm_num [numSteps]

lemma halfNumSteps_three : halfNumSteps 3 = 7/2 := by
  rw [halfNumSteps, numSteps_three]

lemma floor_halfNumSteps_three : (⌊halfNumSteps 3⌋ : ℤ) = 3 := by
  rw [halfNumSteps_three]
  norm_num

lemma deltaSym_c4 : deltaSym 3 4 = 4/3 := by
  rw [deltaSym, floor_halfNumSteps_three]
  norm_num

lemma offsetSym_three : offsetSym 3 = -4 := by
  rw [offsetSym, halfNumSteps_three, ceil_seven_halves]
  norm_num

lemma roundTF_three_halves : roundTF (3/2) = 2 := by
  have hf : (⌊(3 : ℚ)/2⌋ : ℤ) = 1 := by norm_num
  rw [roundTF, hf]
  norm_num

lemma xRoundSym_c4 : xRoundSym 3 4 2 = 6 := by
  rw [xRoundSym, deltaSym_c4, offsetSym_three]
  norm_num [roundTF_three_halves]

lemma maskSym_c4 : maskSym 3 4 2 = 1 := by
  rw [maskSym, xRoundSym_c4, numSteps_three]
  norm_num

lemma clamp_c4 : clampEncodingMax (-4) 4 = 4 := by
  norm_num [clampEncodingMax, epsilon]

lemma computeSymmetric_c4 : computeSymmetric 3 (-4) 4 [2] [1] = (-(1/6), 1/6, [1]) := by
  have hg : gradEncMaxSym 3 4 [2] [1] = 1/6 := by
    rw [gradEncMaxSym, floor_halfNumSteps_three]
    norm_num [xRoundSym_c4, maskSym_c4, numSteps_three, deltaSym_c4, offsetSym_three, clipQ]
  rw [computeSymmetric, clamp_c4]
  norm_num [hg, maskSym_c4]

lemma mask_mul_grad_eq (emin emax : ℚ) (p : ℚ × ℚ) :
    (if emin ≤ p.1 then (if p.1 ≤ emax then (1 : ℚ) else 0) else 0) * p.2 =
      if emin ≤ p.1 ∧ p.1 ≤ emax then p.2 else 0 := by
  by_cases h1 : emin ≤ p.1 <;> by_cases h2 : p.1 ≤ emax <;> simp [h1, h2]

lemma mask_fun_eq (emin emax : ℚ) :
    (fun p : ℚ × ℚ =>
      (if emin ≤ p.1 then (if p.1 ≤ emax then (1 : ℚ) else 0) else 0) * p.2) =
      fun p : ℚ × ℚ => if emin ≤ p.1 ∧ p.1 ≤ emax then p.2 else 0 :=
  funext fun p => mask_mul_grad_eq emin emax p

/-! The claim theorems. -/

/-- C4: in the concrete symmetric per-tensor scenario with `bitWidth = 3`,
post-clamp `encodingMax = 4`, scalar input `x = 2`, and upstream `grad = 1`
in active mode: `numSteps = 7`, `delta = 4/3`, `offset = -4`,
`xRound = round(1.5) + 4 = 6`, `xQuant = 6`, `mask = 1`, and the outputs
are `dL/dx = 1`, `dL/dmax = 1/6`, `dL/dmin = -1/6`. -/
theorem claim_c4_concrete_symmetric_scenario :
    numSteps 3 = 7 ∧
    clampEncodingMax (-4) 4 = 4 ∧
    deltaSym 3 4 = 4/3 ∧
    offsetSym 3 = -4 ∧
    roundTF (3/2) = 2 ∧
    xRoundSym 3 4 2 = 6 ∧
    clipQ (xRoundSym 3 4 2) 0 (numSteps 3) = 6 ∧
    maskSym 3 4 2 = 1 ∧
    computeSymmetric 3 (-4) 4 [2] [1] = (-(1/6), 1/6, [1]) := by
  refine ⟨numSteps_three, clamp_c4, deltaSym_c4, offsetSym_three, roundTF_three_halves,
    xRoundSym_c4, ?_, maskSym_c4, computeSymmetric_c4⟩
  rw [xRoundSym_c4, numSteps_three]
  norm_num [clipQ]

/-- C7 counterexample: the claim asserts every downstream division by
`delta` has a nonzero divisor, but in the symmetric path the post-clamp
encoding pair `(min, max) = (-2, 0)` (whose clamped width is 2 ≥ ε) gives
`delta = 0/3 = 0`, so `x / delta` divides by zero. -/
theorem claim_c7_counterexample :
    clampEncodingMax (-2) 0 = 0 ∧ deltaSym 3 (clampEncodingMax (-2) 0) = 0 := by
  have h : clampEncodingMax (-2) 0 = 0 := by norm_num [clampEncodingMax, epsilon]
  refine ⟨h, ?_⟩
  rw [h, deltaSym]
  norm_num

/-- C7 amended: the clamp returns `max' = max(max, min + 1e-5)` with `min`
unchanged, so the clamped width is at least `1e-5` and the asymmetric
path's divisions by `delta` and by `(max' - min)^2` have nonzero divisors
(for `bitWidth ≥ 1`); the symmetric path's `delta = max'/⌊numSteps/2⌋` can
still be zero when the clamped max is ≤ 0. -/
theorem claim_c7_amended (bw : ℕ) (emin emax : ℚ) (h : 1 ≤ bw) :
    clampEncodingMax emin emax = max emax (emin + epsilon) ∧
    epsilon ≤ clampEncodingMax emin emax - emin ∧
    deltaAsym bw emin (clampEncodingMax emin emax) ≠ 0 ∧
    (clampEncodingMax emin emax - emin) ^ 2 ≠ 0 := by
  have hw : epsilon ≤ clampEncodingMax emin emax - emin := by
    have hr := le_max_right emax (emin + epsilon)
    unfold clampEncodingMax
    linarith
  have hwpos : 0 < clampEncodingMax emin emax - emin :=
    lt_of_lt_of_le (by norm_num [epsilon]) hw
  have hns : (0 : ℚ) < numSteps bw := by
    have h2 : (2 : ℚ) ^ 1 ≤ 2 ^ bw := pow_le_pow_right₀ (by norm_num) h
    unfold numSteps
    norm_num at h2 ⊢
    linarith
  refine ⟨rfl, hw, ?_, ?_⟩
  · unfold deltaAsym
    exact div_ne_zero (ne_of_gt hwpos) (ne_of_gt hns)
  · exact pow_ne_zero 2 (ne_of_gt hwpos)

/-- C7 amended witness at `bitWidth = 3`, `(min, max) = (0, 1)`. -/
theorem claim_c7_amended_witness :
    1 ≤ 3 ∧
    (clampEncodingMax 0 1 = max 1 (0 + epsilon) ∧
     epsilon ≤ clampEncodingMax 0 1 - 0 ∧
     deltaAsym 3 0 (clampEncodingMax 0 1) ≠ 0 ∧
     (clampEncodingMax 0 1 - 0) ^ 2 ≠ 0) :=
  ⟨by norm_num, claim_c7_amended 3 0 1 (by norm_num)⟩

/-- C2: when `opMode = passThrough`, both range-learning entry points
return `dL/dx` with the values of `grad`, and `dL/dmin` and `dL/dmax` are
zero tensors shaped like the encoding tensors. -/
theorem claim_c2_passthrough_identity (bw bwv : ℕ) (emin emax : ℚ)
    (useSym useSymv : Bool) (x g : List ℚ) (eminv emaxv : List ℚ)
    (isInt : Bool) (ah : AxisHandling) (xt gt : Tensor) :
    calculateGradients bw emin emax useSym passThroughMode x g = (0, 0, g) ∧
    (computePerChannel xt bwv passThroughMode eminv emaxv useSymv isInt ah gt).1 =
      eminv.map (fun _ => 0) ∧
    (computePerChannel xt bwv passThroughMode eminv emaxv useSymv isInt ah gt).2.1 =
      emaxv.map (fun _ => 0) ∧
    (computePerChannel xt bwv passThroughMode eminv emaxv useSymv isInt ah gt).2.2.data =
      gt.data := by
  refine ⟨by simp [calculateGradients], ?_, ?_, ?_⟩
  · simp [computePerChannel, calculateGradientsPC]
  · simp [computePerChannel, calculateGradientsPC]
  · cases isInt <;>
      simp [computePerChannel, calculateGradientsPC, reshapeBack_data,
        reshapeForward_snd_data]

/-- C6: in both range-learning paths the straight-through mask is 1 exactly
when `0 ≤ xRound ≤ numSteps`, boundaries inclusive, and `dL/dx` is the
elementwise product of the mask and the upstream gradient. -/
theorem claim_c6_mask_boundary (bw : ℕ) (emin emax xi : ℚ) (x g : List ℚ) :
    maskSym bw emax xi =
      (if 0 ≤ xRoundSym bw emax xi ∧ xRoundSym bw emax xi ≤ numSteps bw
       then 1 else 0) ∧
    maskAsym bw emin emax xi =
      (if 0 ≤ xRoundAsym bw emin emax xi ∧ xRoundAsym bw emin emax xi ≤ numSteps bw
       then 1 else 0) ∧
    (computeSymmetric bw emin emax x g).2.2 =
      (x.zip g).map (fun p => maskSym bw (clampEncodingMax emin emax) p.1 * p.2) ∧
    (computeAsymmetric bw emin emax x g).2.2 =
      (x.zip g).map (fun p => maskAsym bw emin (clampEncodingMax emin emax) p.1 * p.2) :=
  ⟨if_one_mul_if_one _ _, if_one_mul_if_one _ _, rfl, rfl⟩

/-- C3: in symmetric mode with the op mode active, the returned encoding
gradients satisfy `dL/dmin = -dL/dmax` exactly, in both the per-tensor and
the per-channel calculators. -/
theorem claim_c3_symmetric_antisymmetry (bw : ℕ) (emin emax : ℚ) (m : ℤ)
    (x g : List ℚ) (eminv emaxv : List ℚ) (xt gt : Tensor)
    (hbw : 1 ≤ bw) (hm : m ≠ passThroughMode) :
    (calculateGradients bw emin emax true m x g).1 =
      -((calculateGradients bw emin emax true m x g).2.1) ∧
    (calculateGradientsPC bw eminv emaxv true m xt gt).1 =
      ((calculateGradientsPC bw eminv emaxv true m xt gt).2.1).map (fun v => -v) := by
  have h1 : calculateGradients bw emin emax true m x g =
      computeSymmetric bw emin emax x g := by
    simp [calculateGradients, hm]
  have h2 : calculateGradientsPC bw eminv emaxv true m xt gt =
      computeSymmetricPC bw eminv emaxv xt gt := by
    simp [calculateGradientsPC, hm]
  refine ⟨by rw [h1]; rfl, ?_⟩
  rw [h2]
  simp only [computeSymmetricPC, List.map_map]
  rfl

/-- C3 witness at `bitWidth = 3`, active op mode 0. -/
theorem claim_c3_witness :
    (1 ≤ 3 ∧ (0 : ℤ) ≠ passThroughMode) ∧
    ((calculateGradients 3 (-4) 4 true 0 [2] [1]).1 =
       -((calculateGradients 3 (-4) 4 true 0 [2] [1]).2.1) ∧
     (calculateGradientsPC 3 [-4] [4] true 0 ⟨[1], [2]⟩ ⟨[1], [1]⟩).1 =
       ((calculateGradientsPC 3 [-4] [4] true 0 ⟨[1], [2]⟩ ⟨[1], [1]⟩).2.1).map
         (fun v => -v)) :=
  ⟨⟨by norm_num, by decide⟩,
   claim_c3_symmetric_antisymmetry 3 (-4) 4 0 [2] [1] [-4] [4] ⟨[1], [2]⟩ ⟨[1], [1]⟩
     (by norm_num) (by decide)⟩

/-- C5: in asymmetric active mode the returned encoding gradients equal the
spec's closed forms `dL/dmin = -term1 + max * term2` and
`dL/dmax = term1 - min * term2` with the spec's `term1`, `term2`, and
zero-point offset, taken at the post-clamp encoding range. -/
theorem claim_c5_asymmetric_encoding_gradients (bw : ℕ) (emin emax : ℚ)
    (x g : List ℚ) :
    (computeAsymmetric bw emin emax x g).1 =
      specDlossByDminAsym bw emin (clampEncodingMax emin emax) x g ∧
    (computeAsymmetric bw emin emax x g).2.1 =
      specDlossByDmaxAsym bw emin (clampEncodingMax emin emax) x g := by
  have hoff : offsetAsym bw emin (clampEncodingMax emin emax) =
      specOffsetAsym bw emin (clampEncodingMax emin emax) := by
    unfold offsetAsym specOffsetAsym bZero clipQ
    rw [max_comm, min_comm]
  have hxr : ∀ xi, xRoundAsym bw emin (clampEncodingMax emin emax) xi =
      specXRoundAsym bw emin (clampEncodingMax emin emax) xi := by
    intro xi
    unfold xRoundAsym specXRoundAsym
    rw [hoff]
  have hmask : ∀ xi, maskAsym bw emin (clampEncodingMax emin emax) xi =
      specMaskAsym bw emin (clampEncodingMax emin emax) xi := by
    intro xi
    unfold maskAsym specMaskAsym
    rw [if_one_mul_if_one, hxr xi]
  have hq : ∀ xi, xQuantAsym bw emin (clampEncodingMax emin emax) xi =
      specXQuantAsym bw emin (clampEncodingMax emin emax) xi := by
    intro xi
    unfold xQuantAsym specXQuantAsym
    rw [hxr xi]
  constructor
  · simp only [computeAsymmetric, specDlossByDminAsym, specTerm1Asym, specTerm2Asym,
      hq, hoff, hmask]
  · simp only [computeAsymmetric, specDlossByDmaxAsym, specTerm1Asym, specTerm2Asym,
      hq, hoff, hmask]

/-- C9 counterexample: with `opMode = 3` (pass-through) the
recurrent-parameter entry returns the upstream gradient unchanged, while
the active straight-through computation at the same inputs returns 0 (the
input 5 lies outside the range [0, 1]), so the entry is not always treated
as active. -/
theorem claim_c9_counterexample :
    qcRecurrentParamStraightThroughEstimatorGrad 0 1 3 [5] [7] = [7] ∧
    activeStraightThroughDx 0 1 [5] [7] = [0] ∧
    ([7] : List ℚ) ≠ [0] := by
  refine ⟨rfl, ?_, by norm_num⟩
  norm_num [activeStraightThroughDx]

/-- C9 amended: the recurrent-parameter entry applies the straight-through
computation unconditionally (no integer-data-type gate), but that
computation still substitutes the upstream gradient when `opMode = 3`; for
every other op mode it returns the active masked gradient. -/
theorem claim_c9_amended (emin emax : ℚ) (m : ℤ) (x g : List ℚ) :
    qcRecurrentParamStraightThroughEstimatorGrad emin emax m x g =
      if m = 3 then g else activeStraightThroughDx emin emax x g := by
  unfold qcRecurrentParamStraightThroughEstimatorGrad computeDlossByDx
    activeStraightThroughDx
  rw [mask_fun_eq]

/-- C10: the simple per-tensor entry in active integer mode returns the
upstream gradient exactly at elements with
`encodingMin ≤ x ≤ encodingMax`, both bounds inclusive, and zero
elsewhere — the mask compares the real-valued input against the unclamped
encoding range. -/
theorem claim_c10_simple_active_mask (emin emax : ℚ) (m : ℤ) (x g : List ℚ)
    (hm : m ≠ 3) :
    qcStraightThroughEstimatorGrad emin emax m true x g =
      (x.zip g).map (fun p => if emin ≤ p.1 ∧ p.1 ≤ emax then p.2 else 0) := by
  unfold qcStraightThroughEstimatorGrad computeDlossByDx
  rw [mask_fun_eq]
  simp [hm]

/-- C10 witness at op mode 0, range [0, 1], inputs inside and outside. -/
theorem claim_c10_witness :
    ((0 : ℤ) ≠ 3) ∧
    qcStraightThroughEstimatorGrad 0 1 0 true [1/2, 5] [3, 3] =
      (([1/2, 5] : List ℚ).zip [3, 3]).map
        (fun p => if (0 : ℚ) ≤ p.1 ∧ p.1 ≤ 1 then p.2 else 0) :=
  ⟨by decide, claim_c10_simple_active_mask 0 1 0 [1/2, 5] [3, 3] (by decide)⟩

/-- C1 counterexample: with `isIntDataType = false` the per-channel
range-learning entry still produces encoding gradients — at bit width 3,
symmetric encodings `(-4, 4)`, one channel with `x = 2` and `grad = 1` in
active mode it returns `dL/dmax = [1/6] ≠ [0]`, contradicting "no encoding
gradients are produced for the call". -/
theorem claim_c1_counterexample :
    computePerChannel ⟨[1], [2]⟩ 3 0 [-4] [4] true false AxisHandling.perChannel
        ⟨[1], [1]⟩ =
      ([-(1/6)], [1/6], ⟨[1], [1]⟩) ∧
    ((1 : ℚ)/6) ≠ 0 := by
  have hre : reshapeInputAndGradForAxisHandling AxisHandling.perChannel
      ⟨[1], [2]⟩ ⟨[1], [1]⟩ = (⟨[1], [2]⟩, ⟨[1], [1]⟩) :=
    reshapeForward_not_lastTwo _ _ _ (by decide)
  have hsym : computeSymmetricPC 3 [-4] [4] ⟨[1], [2]⟩ ⟨[1], [1]⟩ =
      ([-(1/6)], [1/6], ⟨[1], [1]⟩) := by
    unfold computeSymmetricPC lastDim channelSlice
    simp [List.enum, List.enumFrom, List.range_succ, List.filter,
      computeSymmetric_c4, clamp_c4, maskSym_c4, List.getLastD]
  refine ⟨?_, by norm_num⟩
  unfold computePerChannel
  rw [hre]
  simp [calculateGradientsPC, passThroughMode, hsym]

/-- C1 amended: when `isIntDataType = false` the simple per-tensor entry
returns the upstream gradient unchanged with no encoding gradients, while
the per-channel entry returns `dL/dx` carrying the values of `grad` (equal
to `grad` itself whenever the axis handling is not `lastTwoAxesCombined`,
and to the collapsed-shape reshape of `grad` when it is), and still returns
the encoding gradients computed by the range-learning calculators. -/
theorem claim_c1_amended (x g : Tensor) (bw : ℕ) (m : ℤ) (emin emax : List ℚ)
    (useSym : Bool) (ah : AxisHandling) (eminS emaxS : ℚ) (mS : ℤ)
    (xs gs : List ℚ) :
    qcStraightThroughEstimatorGrad eminS emaxS mS false xs gs = gs ∧
    (computePerChannel x bw m emin emax useSym false ah g).2.2 =
      (reshapeInputAndGradForAxisHandling ah x g).2 ∧
    (computePerChannel x bw m emin emax useSym false ah g).2.2.data = g.data ∧
    (ah ≠ AxisHandling.lastTwoAxes →
      (computePerChannel x bw m emin emax useSym false ah g).2.2 = g) ∧
    ((computePerChannel x bw m emin emax useSym false ah g).1,
      (computePerChannel x bw m emin emax useSym false ah g).2.1) =
      ((calculateGradientsPC bw emin emax useSym m
          (reshapeInputAndGradForAxisHandling ah x g).1
          (reshapeInputAndGradForAxisHandling ah x g).2).1,
       (calculateGradientsPC bw emin emax useSym m
          (reshapeInputAndGradForAxisHandling ah x g).1
          (reshapeInputAndGradForAxisHandling ah x g).2).2.1) := by
  refine ⟨rfl, rfl, reshapeForward_snd_data ah x g, fun h => ?_, rfl⟩
  have hre := reshapeForward_not_lastTwo ah x g h
  show (reshapeInputAndGradForAxisHandling ah x g).2 = g
  rw [hre]

/-- C1 amended witness: per-channel axis handling (no reshape). -/
theorem claim_c1_amended_witness :
    (AxisHandling.perChannel ≠ AxisHandling.lastTwoAxes) ∧
    (computePerChannel ⟨[1], [2]⟩ 3 0 [-4] [4] true false AxisHandling.perChannel
        ⟨[1], [1]⟩).2.2 = ⟨[1], [1]⟩ :=
  ⟨by decide,
   (claim_c1_amended ⟨[1], [2]⟩ ⟨[1], [1]⟩ 3 0 [-4] [4] true
      AxisHandling.perChannel 0 0 0 [] []).2.2.2.1 (by decide)⟩

/-- C8: for `lastTwoAxesCombined` and a rank-4 input of shape
`(d0, d1, d2, d3)`, the forward reshape collapses the input and gradient
shapes to `(d0, d1, d2*d3)` preserving the data, and the inverse reshape
restores shape `(d0, d1, d2, d3)`; for any other axis-handling value both
reshapes are the identity. -/
theorem claim_c8_reshape_round_trip (d0 d1 d2 d3 : ℕ) (x g dldx : Tensor)
    (ah : AxisHandling) (hx : x.shape = [d0, d1, d2, d3]) :
    reshapeInputAndGradForAxisHandling AxisHandling.lastTwoAxes x g =
      (⟨[d0, d1, d2 * d3], x.data⟩, ⟨[d0, d1, d2 * d3], g.data⟩) ∧
    reshapeDlossByDxForAxisHandling AxisHandling.lastTwoAxes x dldx =
      ⟨[d0, d1, d2, d3], dldx.data⟩ ∧
    (ah ≠ AxisHandling.lastTwoAxes →
      reshapeInputAndGradForAxisHandling ah x g = (x, g) ∧
      reshapeDlossByDxForAxisHandling ah x dldx = dldx) := by
  refine ⟨?_, ?_, fun h =>
    ⟨reshapeForward_not_lastTwo _ _ _ h, reshapeBack_not_lastTwo _ _ _ h⟩⟩
  · simp [reshapeInputAndGradForAxisHandling, dim, hx]
  · simp [reshapeDlossByDxForAxisHandling, dim, hx]

/-- C8 witness: a concrete `(1, 1, 2, 2)` tensor and its gradient. -/
theorem claim_c8_witness :
    (Tensor.mk [1, 1, 2, 2] [1, 2, 3, 4]).shape = [1, 1, 2, 2] ∧
    (reshapeInputAndGradForAxisHandling AxisHandling.lastTwoAxes
        ⟨[1, 1, 2, 2], [1, 2, 3, 4]⟩ ⟨[1, 1, 2, 2], [5, 6, 7, 8]⟩ =
      (⟨[1, 1, 2 * 2], [1, 2, 3, 4]⟩, ⟨[1, 1, 2 * 2], [5, 6, 7, 8]⟩) ∧
     reshapeDlossByDxForAxisHandling AxisHandling.lastTwoAxes
        ⟨[1, 1, 2, 2], [1, 2, 3, 4]⟩ ⟨[1, 1, 4], [9, 10, 11, 12]⟩ =
      ⟨[1, 1, 2, 2], [9, 10, 11, 12]⟩ ∧
     (AxisHandling.perTensor ≠ AxisHandling.lastTwoAxes →
       reshapeInputAndGradForAxisHandling AxisHandling.perTensor
           ⟨[1, 1, 2, 2], [1, 2, 3, 4]⟩ ⟨[1, 1, 2, 2], [5, 6, 7, 8]⟩ =
         (⟨[1, 1, 2, 2], [1, 2, 3, 4]⟩, ⟨[1, 1, 2, 2], [5, 6, 7, 8]⟩) ∧
       reshapeDlossByDxForAxisHandling AxisHandling.perTensor
           ⟨[1, 1, 2, 2], [1, 2, 3, 4]⟩ ⟨[1, 1, 4], [9, 10, 11, 12]⟩ =
         ⟨[1, 1, 4], [9, 10, 11, 12]⟩)) :=
  ⟨rfl,
   claim_c8_reshape_round_trip 1 1 2 2 ⟨[1, 1, 2, 2], [1, 2, 3, 4]⟩
     ⟨[1, 1, 2, 2], [5, 6, 7, 8]⟩ ⟨[1, 1, 4], [9, 10, 11, 12]⟩
     AxisHandling.perTensor rfl⟩

end QuantsimGrad
